import Mathlib

/-!
Verification of the LoRA training pipeline
(invokeai/backend/training/lora/lora_training_diffusers.py).

A shallow embedding of the training pipeline's pure decision logic:
dataset-source selection, caption extraction, model-name resolution,
prediction-type dispatch, LoRA adapter injection over attention-processor
names, checkpoint retention, the step-counting loop, and the
barrier/main-process event order around checkpoint writes.

Conventions:
* Python `str` is modelled as Lean `String`; attention-processor names are
  modelled as `List Char` (Python string indexing is per-character).
* Fallible Python code (raise / assert) is modelled with `Except String`.
* `random.choice` is modelled by an externally supplied index oracle.
-/

namespace LoraTraining

/-- The dataset source selected by `_initialize_dataset`. -/
inductive DatasetSource where
  | remote (name : String)
  | imageFolder (dir : String)
  deriving DecidableEq, Repr

/-- Source-selection logic of `_initialize_dataset` (lines 372-392):
`if train_config.dataset_name is not None:` load the named remote dataset;
`elif train_config.dataset_dir is not None:` load the local image folder;
`else:` raise `ValueError`. -/
def initializeDatasetSource (datasetName datasetDir : Option String) :
    Except String DatasetSource :=
  match datasetName with
  | some n => Except.ok (DatasetSource.remote n)
  | none =>
    match datasetDir with
    | some d => Except.ok (DatasetSource.imageFolder d)
    | none =>
      Except.error
        "At least one of 'dataset_name' or 'dataset_dir' must be set."

/-- The top-level call sequence of `run_lora_training` (lines 626-795),
in source order.  Every phase listed here is executed unconditionally on
the straight-line path of the function (conditional branches such as the
text-encoder patching or the xformers setup do not reorder the phases
around them). -/
inductive RunPhase where
  | createOutputDir
  | initAccelerator
  | initLogging
  | checkGradAccumConflict
  | setSeedPhase
  | writeConfigJson
  | getWeightTypePhase
  | loadModelsPhase
  | addLoraUnetPhase
  | registerHooksPhase
  | initOptimizerPhase
  | initDatasetPhase
  | initLrSchedulerPhase
  | preparePhase
  | trainLoopPhase
  deriving DecidableEq, Repr

/-- The order in which `run_lora_training` performs its phases, transcribed
from the source: `os.makedirs` (631), `_initialize_accelerator` (633),
`_initialize_logging` (634), the gradient-accumulation conflict check (644),
`set_seed` (658), writing `config.json` (671), `_get_weight_type` (674),
`_load_models` (676), `add_lora_to_unet_attention_layers` (680),
hook registration (755), `_initialize_optimizer` (793),
`_initialize_dataset` (795), `get_scheduler` (800),
`accelerator.prepare` (817/829), then the training loop (880). -/
def runPhaseOrder : List RunPhase :=
  [RunPhase.createOutputDir, RunPhase.initAccelerator, RunPhase.initLogging,
   RunPhase.checkGradAccumConflict, RunPhase.setSeedPhase,
   RunPhase.writeConfigJson, RunPhase.getWeightTypePhase,
   RunPhase.loadModelsPhase, RunPhase.addLoraUnetPhase,
   RunPhase.registerHooksPhase, RunPhase.initOptimizerPhase,
   RunPhase.initDatasetPhase, RunPhase.initLrSchedulerPhase,
   RunPhase.preparePhase, RunPhase.trainLoopPhase]

/-- A caption value found in the dataset's caption column: a single string,
a list/array of string variants, or a value of any other type. -/
inductive CaptionValue where
  | str (s : String)
  | strList (ss : List String)
  | otherType
  deriving DecidableEq, Repr

/-- Caption extraction for one example, from `tokenize_captions`
(lines 412-426).  A plain string passes through; for a list,
`random.choice(caption)` is taken in training mode (the oracle `pick`
supplies the random draw; Python raises `IndexError` on an empty sequence)
and `caption[0]` otherwise; any other type raises `ValueError`. -/
def extractCaption (isTrain : Bool) (pick : Nat) :
    CaptionValue → Except String String
  | CaptionValue.str s => Except.ok s
  | CaptionValue.strList ss =>
    if h : ss.length = 0 then
      Except.error "IndexError: cannot choose from an empty sequence"
    else
      if isTrain then
        Except.ok (ss.get ⟨pick % ss.length, Nat.mod_lt _ (Nat.pos_of_ne_zero h)⟩)
      else
        Except.ok (ss.get ⟨0, Nat.pos_of_ne_zero h⟩)
  | CaptionValue.otherType =>
    Except.error
      "Caption column should contain either strings or lists of strings."

/-- The caption-collection loop of `tokenize_captions`: one caption string
is appended per example; the first offending example aborts the whole
call.  `pick` gives the random draw used at each position. -/
def collectCaptions (isTrain : Bool) (pick : Nat → Nat) :
    List CaptionValue → Except String (List String)
  | [] => Except.ok []
  | c :: cs =>
    match extractCaption isTrain (pick 0) c with
    | Except.error e => Except.error e
    | Except.ok s =>
      match collectCaptions isTrain (fun i => pick (i + 1)) cs with
      | Except.error e => Except.error e
      | Except.ok rest => Except.ok (s :: rest)

/-- The effective prediction type used by the training step
(lines 925-930): when `train_config.prediction_type` is set it is written
into the scheduler's config (`register_to_config`), so the scheduler's
`config.prediction_type` read on line 931 is the override when present and
the scheduler's own value otherwise. -/
def effectivePredictionType (configPredictionType : Option String)
    (schedulerPredictionType : String) : String :=
  configPredictionType.getD schedulerPredictionType

/-- Regression-target selection of the training step (lines 931-941) over
abstract latent tensors `α`.  `getVelocity` stands for
`noise_scheduler.get_velocity`; the target is the raw `noise` for
`"epsilon"`, `get_velocity(latents, noise, timesteps)` for
`"v_prediction"`, and any other value raises
`ValueError("Unknown prediction type {v}")`. -/
def computeTarget {α : Type} (predictionType : String)
    (getVelocity : α → α → Nat → α) (latents noise : α) (timesteps : Nat) :
    Except String α :=
  if predictionType = "epsilon" then
    Except.ok noise
  else if predictionType = "v_prediction" then
    Except.ok (getVelocity latents noise timesteps)
  else
    Except.error ("Unknown prediction type " ++ predictionType)

/-- The target-then-loss fragment of the training step (lines 931-950):
the target is computed first, and only then is the mean-squared-error loss
between the model prediction and the target computed (line 948).  An
invalid prediction type therefore aborts before any loss value exists. -/
def targetAndLoss {α β : Type} (predictionType : String)
    (getVelocity : α → α → Nat → α) (latents noise : α) (timesteps : Nat)
    (modelPred : α) (mseLoss : α → α → β) : Except String (α × β) :=
  match computeTarget predictionType getVelocity latents noise timesteps with
  | Except.error e => Except.error e
  | Except.ok target => Except.ok (target, mseLoss modelPred target)

/-- Python `s.endswith(t)` on strings, as a suffix test on the character
lists. -/
def strEndsWith (s t : String) : Bool := t.toList.isSuffixOf s.toList

/-- The trailing path component of the configured model name:
`train_config.model.split("/")[-1]` (line 282), i.e. the characters after
the last `'/'` (the whole string when there is none). -/
def trailingComponent (model : String) : String :=
  String.mk ((model.toList.reverse.takeWhile (fun c => c != '/')).reverse)

/-- Model-name resolution of `_load_models` (lines 280-289):
`next((mm for mm in known_models if mm[0].endswith(model_name)), None)`
returns the first registry name that ends with the trailing path component
of the configured name; `assert model_meta is not None` turns the absence
of a match into a fatal error. -/
def resolveModel (configModel : String) (knownModels : List String) :
    Except String String :=
  match knownModels.find?
      (fun k => strEndsWith k (trailingComponent configModel)) with
  | some k => Except.ok k
  | none => Except.error ("Unknown model: " ++ configModel)

/-- The spec's reading of model resolution, for comparison with
`resolveModel`: an exact match of a registry name against the trailing
path component of the configured name
("exact match on trailing path component"). -/
def resolveModelSpec (configModel : String) (knownModels : List String) :
    Except String String :=
  match knownModels.find? (fun k => k == trailingComponent configModel) with
  | some k => Except.ok k
  | none => Except.error ("Unknown model: " ++ configModel)

/-- The observable synchronization actions around a checkpoint write. -/
inductive SyncEvent where
  | barrier
  | checkpointWrite
  deriving DecidableEq, Repr

/-- Events emitted by one process (of main/non-main rank) at the
step-cadence checkpoint site (lines 989-1002): every process calls
`accelerator.wait_for_everyone()`, and then only the main process calls
`_save_checkpoint`. -/
def stepSaveEvents (isMainProcess : Bool) : List SyncEvent :=
  [SyncEvent.barrier] ++
    (if isMainProcess then [SyncEvent.checkpointWrite] else [])

/-- Events emitted by one process at the epoch-cadence checkpoint site
(lines 1014-1027): the whole block, `accelerator.wait_for_everyone()`
included, sits inside `if accelerator.is_main_process:`, so a non-main
process emits nothing at this site. -/
def epochSaveEvents (isMainProcess : Bool) : List SyncEvent :=
  if isMainProcess then [SyncEvent.barrier, SyncEvent.checkpointWrite]
  else []

/-- An attention-processor name, modelled as a character list so that the
source's per-character indexing (`name[len("up_blocks.")]`) is direct. -/
abbrev ProcName := List Char

/-- `int(c)` on a single character: the digit value for '0'..'9', a fatal
`ValueError` otherwise. -/
def charToDigit (c : Char) : Except String Nat :=
  if c.isDigit then Except.ok (c.toNat - 48)
  else Except.error "ValueError: invalid literal for int()"

/-- Hidden-size selection of `add_lora_to_unet_attention_layers`
(lines 187-200), over the UNet's `block_out_channels` list:
names starting with `"mid_block"` take `block_out_channels[-1]`;
names starting with `"up_blocks"` parse `name[len("up_blocks.")]`
(character index 10) as the block id and index the reversed channel list;
names starting with `"down_blocks"` parse character index 12 and index the
channel list forward; any other name raises
`Exception("Encountered unexpected attention processor name: ...")`.
Out-of-range indexing is the corresponding Python `IndexError`. -/
def hiddenSizeForName (blockOutChannels : List Nat) (name : ProcName) :
    Except String Nat :=
  if ("mid_block".toList).isPrefixOf name then
    match blockOutChannels.getLast? with
    | some h => Except.ok h
    | none => Except.error "IndexError: block_out_channels is empty"
  else if ("up_blocks".toList).isPrefixOf name then
    match name.get? 10 with
    | none => Except.error "IndexError: name too short"
    | some c =>
      match charToDigit c with
      | Except.error e => Except.error e
      | Except.ok blockId =>
        match blockOutChannels.reverse.get? blockId with
        | some h => Except.ok h
        | none => Except.error "IndexError: block id out of range"
  else if ("down_blocks".toList).isPrefixOf name then
    match name.get? 12 with
    | none => Except.error "IndexError: name too short"
    | some c =>
      match charToDigit c with
      | Except.error e => Except.error e
      | Except.ok blockId =>
        match blockOutChannels.get? blockId with
        | some h => Except.ok h
        | none => Except.error "IndexError: block id out of range"
  else
    Except.error "Encountered unexpected attention processor name."

/-- Cross-attention-dimension selection (lines 182-186):
`None if name.endswith("attn1.processor") else
unet.config.cross_attention_dim`. -/
def crossAttentionDimForName (crossAttentionDim : Nat) (name : ProcName) :
    Option Nat :=
  if ("attn1.processor".toList).isSuffixOf name then none
  else some crossAttentionDim

/-- The family of an existing attention processor: the added-KV variants
(`AttnAddedKVProcessor`, `SlicedAttnAddedKVProcessor`,
`AttnAddedKVProcessor2_0`) versus the standard variants. -/
inductive AttnProcKind where
  | addedKV
  | standard
  deriving DecidableEq, Repr

/-- A newly constructed LoRA attention processor
(`LoRAAttnAddedKVProcessor` for the added-KV family, else
`LoRAAttnProcessor2_0`/`LoRAAttnProcessor` — the latter choice depends only
on kernel availability and does not change the parameter structure). -/
structure LoraProc where
  hiddenSize : Nat
  crossAttentionDim : Option Nat
  rank : Nat
  kind : AttnProcKind
  deriving DecidableEq, Repr

/-- A torch parameter tensor, tracked only by its `requires_grad` flag. -/
structure TParam where
  requiresGrad : Bool
  deriving DecidableEq, Repr

/-- `module.parameters()` of a freshly constructed LoRA attention
processor.  A standard LoRA processor holds 4 `LoRALinearLayer`s
(`to_q/to_k/to_v/to_out`), an added-KV one holds 6 (adding
`add_k_proj/add_v_proj`); each layer has a `down` and an `up` weight, and
new parameters are created trainable. -/
def loraProcParams (p : LoraProc) : List TParam :=
  List.replicate
    (2 * (match p.kind with | AttnProcKind.addedKV => 6
                            | AttnProcKind.standard => 4))
    { requiresGrad := true }

/-- The UNet state visible to adapter injection: its config
(`block_out_channels`, `cross_attention_dim`), its named attention
processors, and its base (non-processor) parameters. -/
structure UNetModel where
  blockOutChannels : List Nat
  crossAttentionDim : Nat
  attnProcessors : List (ProcName × AttnProcKind)
  baseParams : List TParam
  deriving DecidableEq, Repr

/-- The loop body of `add_lora_to_unet_attention_layers` (lines 179-224):
for each named processor, compute the hidden size and cross-attention
dimension, construct one LoRA processor of the matching family, and extend
the flat trainable-parameter list with the new module's parameters. -/
def buildLoraProcs (blockOutChannels : List Nat) (crossAttentionDim rank : Nat) :
    List (ProcName × AttnProcKind) →
    Except String (List (ProcName × LoraProc) × List TParam)
  | [] => Except.ok ([], [])
  | (name, kind) :: rest =>
    match hiddenSizeForName blockOutChannels name with
    | Except.error e => Except.error e
    | Except.ok hidden =>
      let module : LoraProc :=
        { hiddenSize := hidden
          crossAttentionDim := crossAttentionDimForName crossAttentionDim name
          rank := rank
          kind := kind }
      match buildLoraProcs blockOutChannels crossAttentionDim rank rest with
      | Except.error e => Except.error e
      | Except.ok (procs, params) =>
        Except.ok ((name, module) :: procs, loraProcParams module ++ params)

/-- `add_lora_to_unet_attention_layers` (lines 147-228): build one LoRA
processor per attention processor, install them with
`unet.set_attn_processor` (which replaces the processor modules and leaves
the UNet's base parameters untouched), and return the installed processors
together with the flat list of new trainable parameters. -/
def addLoraToUnetAttentionLayers (unet : UNetModel) (rank : Nat) :
    Except String (UNetModel × List (ProcName × LoraProc) × List TParam) :=
  match buildLoraProcs unet.blockOutChannels unet.crossAttentionDim rank
      unet.attnProcessors with
  | Except.error e => Except.error e
  | Except.ok (procs, params) =>
    Except.ok
      ({ unet with attnProcessors := procs.map (fun p => (p.1, p.2.kind)) },
        procs, params)

/-- The frozen base models returned by `_load_models`: text encoder,
autoencoder and UNet parameters, all with gradient tracking disabled by
`requires_grad_(False)` (lines 334-336). -/
structure ModelBundle where
  textEncoderParams : List TParam
  vaeParams : List TParam
  unet : UNetModel
  deriving DecidableEq, Repr

/-- The freezing step of `_load_models` (lines 334-336): disable
`requires_grad` on every parameter of the text encoder, the VAE and the
UNet. -/
def freezeModels (b : ModelBundle) : ModelBundle :=
  { textEncoderParams := b.textEncoderParams.map (fun _ => { requiresGrad := false })
    vaeParams := b.vaeParams.map (fun _ => { requiresGrad := false })
    unet := { b.unet with
      baseParams := b.unet.baseParams.map (fun _ => { requiresGrad := false }) } }

/-- The load-then-inject pipeline of `run_lora_training` (lines 676-682):
`_load_models` freezes the base models, then
`add_lora_to_unet_attention_layers` injects the adapters into the UNet.
Returns the bundle after injection together with the injected processors
and the trainable parameters. -/
def loadAndInject (b : ModelBundle) (rank : Nat) :
    Except String (ModelBundle × List (ProcName × LoraProc) × List TParam) :=
  let frozen := freezeModels b
  match addLoraToUnetAttentionLayers frozen.unet rank with
  | Except.error e => Except.error e
  | Except.ok (unet2, procs, params) =>
    Except.ok ({ frozen with unet := unet2 }, procs, params)

/-- An entry of the run's output directory: a checkpoint named
`"checkpoint_{pfx}-{idx:08}"` (modelled by its prefix and numeric index; the
zero-padded rendering is injective for a fixed prefix) or any other
file/directory (`config.json`, `logs`, `validation`, ...), which never
starts with `"checkpoint_{pfx}-"` for the prefixes `"step"`/`"epoch"`
in use. -/
inductive DirEntry where
  | checkpoint (pfx : String) (idx : Nat)
  | otherFile (name : String)
  deriving DecidableEq, Repr

/-- `d.startswith(full_prefix)` of `_save_checkpoint` (line 519) with
`full_prefix = "checkpoint_{pfx}-"`: true exactly for checkpoint entries
written under the same prefix (neither of the prefixes in use, `"step"`
and `"epoch"`, is a prefix of the other). -/
def matchesPfx (pfx : String) : DirEntry → Bool
  | DirEntry.checkpoint q _ => q == pfx
  | DirEntry.otherFile _ => false

/-- The sort key `int(os.path.splitext(x)[0].split("-")[-1])`
(line 522): the trailing numeric suffix of the entry name, which for a
checkpoint entry is its index. -/
def entryIdx : DirEntry → Nat
  | DirEntry.checkpoint _ idx => idx
  | DirEntry.otherFile _ => 0

/-- Ascending order on the trailing numeric suffix, used by `sorted`. -/
def idxLe (a b : DirEntry) : Prop := entryIdx a ≤ entryIdx b

instance : DecidableRel idxLe := fun a b => Nat.decLe (entryIdx a) (entryIdx b)

/-- `_save_checkpoint` (lines 493-550) acting on the output directory:
when `max_checkpoints` is set, list the entries starting with
`"checkpoint_{pfx}-"`, sort them ascending by trailing numeric suffix, and
if their count is at or above the maximum delete the oldest
`count - max + 1` of them (by name; file or directory); then write the new
checkpoint `"checkpoint_{pfx}-{idx:08}"`.  When `max_checkpoints` is
`None` the whole eviction block is skipped. -/
def saveCheckpoint (idx : Nat) (pfx : String) (maxCheckpoints : Option Nat)
    (dir : List DirEntry) : List DirEntry :=
  let afterEvict :=
    match maxCheckpoints with
    | none => dir
    | some maxC =>
      let checkpoints := dir.filter (matchesPfx pfx)
      let sortedCps := checkpoints.insertionSort idxLe
      if maxC ≤ checkpoints.length then
        let toRemove := sortedCps.take (checkpoints.length - maxC + 1)
        dir.filter (fun e => !(toRemove.contains e))
      else dir
  afterEvict ++ [DirEntry.checkpoint pfx idx]

/-- A sequence of checkpoint saves with the same prefix and retention
configuration, applied to an initial directory state. -/
def saveRun (pfx : String) (maxCheckpoints : Option Nat)
    (dir : List DirEntry) (idxs : List Nat) : List DirEntry :=
  idxs.foldl (fun d i => saveCheckpoint i pfx maxCheckpoints d) dir

/-- One epoch's batch loop (lines 886-1011) in the single-process,
`gradient_accumulation_steps = 1` regime: every batch performs one
optimizer step and increments `global_step` (lines 983-985), and the loop
breaks once `global_step >= max_train_steps` (line 1010; the check runs
after the step, at the end of the batch body). -/
def runEpochSteps (maxSteps : Nat) : Nat → Nat → Nat
  | globalStep, 0 => globalStep
  | globalStep, numBatches + 1 =>
    if maxSteps ≤ globalStep + 1 then globalStep + 1
    else runEpochSteps maxSteps (globalStep + 1) numBatches

/-- The epoch loop (line 880): `for epoch in range(first_epoch,
num_train_epochs)` has no break of its own — after an in-epoch break the
next epoch still starts if any epochs remain. -/
def runEpochs (maxSteps batchesPerEpoch : Nat) : Nat → Nat → Nat
  | globalStep, 0 => globalStep
  | globalStep, numEpochs + 1 =>
    runEpochs maxSteps batchesPerEpoch
      (runEpochSteps maxSteps globalStep batchesPerEpoch) numEpochs

/-- `num_steps_per_epoch = math.ceil(len(data_loader) /
gradient_accumulation_steps)` (line 835). -/
def numStepsPerEpoch (numBatches gradAccumSteps : Nat) : Nat :=
  (numBatches + gradAccumSteps - 1) / gradAccumSteps

/-- `num_train_epochs = math.ceil(max_train_steps / num_steps_per_epoch)`
(line 838). -/
def numTrainEpochs (maxSteps stepsPerEpoch : Nat) : Nat :=
  (maxSteps + stepsPerEpoch - 1) / stepsPerEpoch

/-- The final value of `global_step` after the whole training loop, in the
single-process, `gradient_accumulation_steps = 1` regime, as a function of
`max_train_steps` and the number of batches per epoch.  In this model
`global_step` also counts the optimization steps started: every processed
batch starts (and finishes) exactly one optimizer step. -/
def trainLoopFinalStep (maxSteps numBatches : Nat) : Nat :=
  runEpochs maxSteps numBatches 0
    (numTrainEpochs maxSteps (numStepsPerEpoch numBatches 1))

/-! ## Theorems -/

/-- C1, counterexample: with both dataset sources set, initialization does
not raise — the remote dataset name silently takes precedence — and model
loading happens before the dataset check in `run_lora_training`, so the
claimed "ConfigurationError before any model is loaded" is false on both
counts. -/
theorem C1_counterexample :
    initializeDatasetSource (some "lambdalabs/pokemon-blip-captions")
        (some "/data/images") =
      Except.ok (DatasetSource.remote "lambdalabs/pokemon-blip-captions") ∧
    runPhaseOrder.indexOf RunPhase.loadModelsPhase <
      runPhaseOrder.indexOf RunPhase.initDatasetPhase :=
  ⟨rfl, by decide⟩

/-- C1, amended: dataset initialization raises a fatal error exactly when
both sources are unset; when the remote dataset name is set (the local
directory set or not) it is used without error; when only the local
directory is set it is used; and the check runs in `_initialize_dataset`,
which `run_lora_training` calls only after `_load_models`. -/
theorem C1_dataset_source_selection :
    initializeDatasetSource none none =
      Except.error
        "At least one of 'dataset_name' or 'dataset_dir' must be set." ∧
    (∀ (n : String) (datasetDir : Option String),
      initializeDatasetSource (some n) datasetDir =
        Except.ok (DatasetSource.remote n)) ∧
    (∀ d : String,
      initializeDatasetSource none (some d) =
        Except.ok (DatasetSource.imageFolder d)) ∧
    runPhaseOrder.indexOf RunPhase.loadModelsPhase <
      runPhaseOrder.indexOf RunPhase.initDatasetPhase :=
  ⟨rfl, fun _ _ => rfl, fun _ => rfl, by decide⟩

/-- C3, counterexample: resolution is a suffix match, not an exact match,
of registry names against the trailing path component: with configured
name `"bar"` and registry `["foobar"]` the code resolves to `"foobar"`,
while the claimed exact-match rule would fail with a model-not-found
error. -/
theorem C3_counterexample :
    resolveModel "bar" ["foobar"] = Except.ok "foobar" ∧
    resolveModelSpec "bar" ["foobar"] =
      Except.error ("Unknown model: " ++ "bar") :=
  ⟨rfl, rfl⟩

/-- C3, amended: model loading resolves the configured name to the first
registry entry whose name ends with the trailing path component of the
configured name, and fails with an unknown-model error exactly when no
registry name has that suffix. -/
theorem C3_model_resolution (configModel : String) (knownModels : List String) :
    (resolveModel configModel knownModels =
        Except.error ("Unknown model: " ++ configModel) ↔
      ∀ k ∈ knownModels,
        strEndsWith k (trailingComponent configModel) = false) ∧
    (∀ r, resolveModel configModel knownModels = Except.ok r →
      r ∈ knownModels ∧
        strEndsWith r (trailingComponent configModel) = true) := by
  constructor
  · constructor
    · intro _herr
      cases hfind : knownModels.find?
          (fun k => strEndsWith k (trailingComponent configModel)) with
      | none =>
        intro k hk
        have h := List.find?_eq_none.mp hfind k hk
        simpa using h
      | some k =>
        exfalso
        unfold resolveModel at _herr
        rw [hfind] at _herr
        exact Except.noConfusion _herr
    · intro hall
      unfold resolveModel
      cases hfind : knownModels.find?
          (fun k => strEndsWith k (trailingComponent configModel)) with
      | none => rfl
      | some k =>
        exfalso
        have h1 := List.find?_some hfind
        have h2 := List.mem_of_find?_eq_some hfind
        rw [hall k h2] at h1
        exact Bool.noConfusion h1
  · intro r hr
    unfold resolveModel at hr
    cases hfind : knownModels.find?
        (fun k => strEndsWith k (trailingComponent configModel)) with
    | none => rw [hfind] at hr; exact Except.noConfusion hr
    | some k =>
      rw [hfind] at hr
      have hkr : k = r := by injection hr
      subst hkr
      have hmem := List.mem_of_find?_eq_some hfind
      have hpred := List.find?_some hfind
      exact ⟨hmem, hpred⟩

/-- C3, witness: a registry entry whose trailing path component equals the
configured trailing component is resolved (here the suffix and exact
readings coincide). -/
theorem C3_witness :
    "runwayml/stable-diffusion-v1-5" ∈ ["runwayml/stable-diffusion-v1-5"] ∧
    strEndsWith "runwayml/stable-diffusion-v1-5"
      (trailingComponent "stable-diffusion-v1-5") = true :=
  (C3_model_resolution "stable-diffusion-v1-5"
    ["runwayml/stable-diffusion-v1-5"]).2 "runwayml/stable-diffusion-v1-5" rfl

/-- C4: with the configured prediction type overriding the scheduler
default, the regression target is the raw noise for `"epsilon"` and the
scheduler's velocity formula applied to (latents, noise, timesteps) for
`"v_prediction"`; any other value makes the step fail with a `ValueError`
message referencing the invalid value, before any loss is computed. -/
theorem C4_prediction_type_dispatch {α β : Type}
    (getVelocity : α → α → Nat → α) (latents noise : α) (timesteps : Nat)
    (modelPred : α) (mseLoss : α → α → β)
    (predictionType schedulerDefault : String)
    (h1 : predictionType ≠ "epsilon") (h2 : predictionType ≠ "v_prediction") :
    effectivePredictionType (some predictionType) schedulerDefault =
      predictionType ∧
    effectivePredictionType none schedulerDefault = schedulerDefault ∧
    targetAndLoss "epsilon" getVelocity latents noise timesteps modelPred
      mseLoss = Except.ok (noise, mseLoss modelPred noise) ∧
    targetAndLoss "v_prediction" getVelocity latents noise timesteps modelPred
      mseLoss = Except.ok (getVelocity latents noise timesteps,
        mseLoss modelPred (getVelocity latents noise timesteps)) ∧
    targetAndLoss predictionType getVelocity latents noise timesteps modelPred
      mseLoss = Except.error ("Unknown prediction type " ++ predictionType) := by
  refine ⟨rfl, rfl, ?_, ?_, ?_⟩
  · simp [targetAndLoss, computeTarget]
  · simp [targetAndLoss, computeTarget]
  · simp [targetAndLoss, computeTarget, h1, h2]

/-- C4, witness: the scenario's invalid value `"unknown_mode"` aborts the
step with the `ValueError` message referencing it. -/
theorem C4_witness :
    targetAndLoss "unknown_mode" (fun a _ _ => a) (0 : Nat) 1 2 3
      (fun a b : Nat => a + b) =
      Except.error ("Unknown prediction type " ++ "unknown_mode") :=
  (C4_prediction_type_dispatch (fun a _ _ => a) 0 1 2 3 (fun a b => a + b)
    "unknown_mode" "epsilon" (by decide) (by decide)).2.2.2.2

/-- C9: at the step-cadence site every process reaches the barrier before
the main process writes, and writes happen only on the main process at
both sites; but at the epoch-cadence site a non-main process emits no
barrier at all (the `wait_for_everyone` call sits inside the
`is_main_process` guard), contradicting the claim that every checkpoint
write is preceded by all processes reaching a barrier. -/
theorem C9_checkpoint_sync_events :
    (∀ isMainProcess, SyncEvent.barrier ∈ stepSaveEvents isMainProcess) ∧
    SyncEvent.checkpointWrite ∉ stepSaveEvents false ∧
    SyncEvent.checkpointWrite ∉ epochSaveEvents false ∧
    SyncEvent.barrier ∉ epochSaveEvents false := by
  decide

/-- C10: with `max_checkpoints = None` the eviction block is skipped
entirely — every save just appends its checkpoint, every previously
written checkpoint entry stays on disk, and the count grows with the
number of saves. -/
theorem C10_unbounded_retention (pfx : String) (dir : List DirEntry)
    (idxs : List Nat) :
    saveRun pfx none dir idxs =
      dir ++ idxs.map (DirEntry.checkpoint pfx) := by
  induction idxs generalizing dir with
  | nil => simp [saveRun]
  | cons i rest ih =>
    have hstep : saveRun pfx none dir (i :: rest) =
        saveRun pfx none (dir ++ [DirEntry.checkpoint pfx i]) rest := rfl
    rw [hstep, ih]
    simp

/-- Holds when `result` is a successful tokenization pass yielding exactly
`n` caption strings (one per example). -/
def yieldsOnePerExample (result : Except String (List String)) (n : Nat) :
    Prop :=
  match result with
  | Except.ok out => out.length = n
  | Except.error _ => False

/-- C8: a single-string caption passes through unchanged in both modes;
for a nonempty list of variants, training mode returns the variant chosen
by the random draw (every variant is reachable by some draw) and
non-training mode deterministically returns the first entry; any other
caption type raises the fatal `ValueError`; and over a mix of strings and
nonempty lists the collection loop yields exactly one string per
example. -/
theorem C8_caption_extraction :
    (∀ (isTrain : Bool) (pick : Nat) (s : String),
      extractCaption isTrain pick (CaptionValue.str s) = Except.ok s) ∧
    (∀ (ss : List String) (i : Nat) (hi : i < ss.length),
      extractCaption true i (CaptionValue.strList ss) =
        Except.ok (ss.get ⟨i, hi⟩)) ∧
    (∀ (ss : List String) (pick : Nat) (h : ss ≠ []),
      extractCaption false pick (CaptionValue.strList ss) =
        Except.ok (ss.head h)) ∧
    (∀ (isTrain : Bool) (pick : Nat),
      extractCaption isTrain pick CaptionValue.otherType =
        Except.error
          "Caption column should contain either strings or lists of strings.") ∧
    (∀ (isTrain : Bool) (pick : Nat → Nat) (cs : List CaptionValue),
      (∀ c ∈ cs, c ≠ CaptionValue.otherType ∧ c ≠ CaptionValue.strList []) →
      yieldsOnePerExample (collectCaptions isTrain pick cs) cs.length) := by
  refine ⟨fun _ _ _ => rfl, ?_, ?_, fun _ _ => rfl, ?_⟩
  · intro ss i hi
    have hne : ¬ ss.length = 0 := by omega
    have hmod : i % ss.length = i := Nat.mod_eq_of_lt hi
    simp [extractCaption, hne, hmod]
  · intro ss pick h
    cases ss with
    | nil => exact absurd rfl h
    | cons a t => simp [extractCaption]
  · intro isTrain pick cs
    induction cs generalizing pick with
    | nil => intro _; simp [collectCaptions, yieldsOnePerExample]
    | cons c rest ih =>
      intro hwf
      obtain ⟨h1, h2⟩ := hwf c (List.mem_cons_self c rest)
      cases hec : extractCaption isTrain (pick 0) c with
      | error e =>
        exfalso
        cases c with
        | str s => simp [extractCaption] at hec
        | strList ss =>
          cases ss with
          | nil => exact h2 rfl
          | cons a t => cases isTrain <;> simp [extractCaption] at hec
        | otherType => exact h1 rfl
      | ok s =>
        have hrest := ih (fun i => pick (i + 1))
          (fun d hd => hwf d (List.mem_cons_of_mem _ hd))
        simp only [collectCaptions, hec]
        cases hr : collectCaptions isTrain (fun i => pick (i + 1)) rest with
        | error e => rw [hr] at hrest; exact hrest.elim
        | ok out =>
          rw [hr] at hrest
          simp only [yieldsOnePerExample] at hrest ⊢
          simp [hrest]

/-- C8, witness: a two-variant list caption in training mode, with the
random draw selecting index 1, yields the second variant. -/
theorem C8_witness :
    extractCaption true 1 (CaptionValue.strList ["a photo", "an image"]) =
      Except.ok (["a photo", "an image"].get ⟨1, by decide⟩) :=
  C8_caption_extraction.2.1 ["a photo", "an image"] 1 (by decide)

/-- Within one epoch started below the step limit, the batch loop advances
the step counter by the number of batches, capped at the limit (the break
fires as soon as the limit is reached). -/
theorem runEpochSteps_min (maxSteps numBatches globalStep : Nat)
    (h : globalStep < maxSteps) :
    runEpochSteps maxSteps globalStep numBatches =
      min (globalStep + numBatches) maxSteps := by
  induction numBatches generalizing globalStep with
  | zero => simp [runEpochSteps]; omega
  | succ b ih =>
    by_cases hle : maxSteps ≤ globalStep + 1
    · simp [runEpochSteps, hle]; omega
    · simp only [runEpochSteps, if_neg hle]
      rw [ih (globalStep + 1) (by omega)]
      omega

/-- If the step limit is first reached during the last of the remaining
epochs, the epoch loop ends with the counter exactly at the limit. -/
theorem runEpochs_reach (maxSteps numBatches : Nat) :
    ∀ (k globalStep : Nat), globalStep < maxSteps →
    maxSteps ≤ globalStep + numBatches * (k + 1) →
    globalStep + numBatches * k < maxSteps →
    runEpochs maxSteps numBatches globalStep (k + 1) = maxSteps := by
  intro k
  induction k with
  | zero =>
    intro globalStep h1 h2 _h3
    have hstep : runEpochs maxSteps numBatches globalStep 1 =
        runEpochSteps maxSteps globalStep numBatches := rfl
    rw [hstep, runEpochSteps_min maxSteps numBatches globalStep h1]
    omega
  | succ k ih =>
    intro globalStep h1 h2 h3
    have hmul1 : numBatches * (k + 1) = numBatches * k + numBatches := by ring
    have hmul2 : numBatches * (k + 1 + 1) = numBatches * k + numBatches +
        numBatches := by ring
    have hgsB : globalStep + numBatches < maxSteps := by omega
    have hstep : runEpochs maxSteps numBatches globalStep (k + 2) =
        runEpochs maxSteps numBatches
          (runEpochSteps maxSteps globalStep numBatches) (k + 1) := rfl
    rw [hstep, runEpochSteps_min maxSteps numBatches globalStep h1]
    have hmin : min (globalStep + numBatches) maxSteps =
        globalStep + numBatches := by omega
    rw [hmin]
    exact ih (globalStep + numBatches) hgsB (by omega) (by omega)

/-- C5: in the single-process, accumulation-steps-1 regime with a nonempty
data loader (`numBatches ≥ 1`) and a positive step limit, the training
loop ends with `global_step` exactly equal to `max_train_steps`: the step
reaching the limit falls in the final planned epoch, the in-epoch break
fires right after it, and no further epoch (hence no further optimization
step) is started — in this model `trainLoopFinalStep` also counts the
optimization steps started. -/
theorem C5_loop_terminates_at_max_steps (maxSteps numBatches : Nat)
    (hM : 1 ≤ maxSteps) (hB : 1 ≤ numBatches) :
    trainLoopFinalStep maxSteps numBatches = maxSteps := by
  unfold trainLoopFinalStep numTrainEpochs numStepsPerEpoch
  have hspe : (numBatches + 1 - 1) / 1 = numBatches := by simp
  rw [hspe]
  have key := Nat.div_add_mod (maxSteps + numBatches - 1) numBatches
  have hrB : (maxSteps + numBatches - 1) % numBatches < numBatches :=
    Nat.mod_lt _ (by omega)
  rcases Nat.eq_zero_or_pos ((maxSteps + numBatches - 1) / numBatches)
    with h0 | hpos
  · exfalso
    rw [h0] at key
    simp at key
    omega
  · obtain ⟨k, hk⟩ : ∃ k, (maxSteps + numBatches - 1) / numBatches = k + 1 :=
      ⟨(maxSteps + numBatches - 1) / numBatches - 1, by omega⟩
    rw [hk]
    rw [hk] at key
    have hmul1 : numBatches * (k + 1) = numBatches * k + numBatches := by ring
    exact runEpochs_reach maxSteps numBatches k 0 (by omega) (by omega)
      (by omega)

/-- C5, witness: the scenario `max_train_steps = 10` with five batches per
epoch (e.g. a 10-example dataset at batch size 2) ends at
`global_step = 10` exactly. -/
theorem C5_witness : trainLoopFinalStep 10 5 = 10 :=
  C5_loop_terminates_at_max_steps 10 5 (by decide) (by decide)

/-- A list is a prefix of itself followed by anything. -/
theorem isPrefixOf_append_self (l t : List Char) :
    l.isPrefixOf (l ++ t) = true := by
  induction l with
  | nil => simp [List.isPrefixOf]
  | cons a as ih => simp [List.isPrefixOf, ih]

/-- C6: hidden-size selection from the name's position in the block
hierarchy — a name starting with `"mid_block"` takes the last channel
value; a name `"down_blocks.{d}..."` with digit `d` in range indexes the
channel list forward at `d`; a name `"up_blocks.{d}..."` indexes the
reversed channel list at `d`; a name starting with none of the three
patterns is a fatal error — and the cross-attention dimensionality is
omitted exactly when the name ends with `"attn1.processor"`. -/
theorem C6_attention_name_dispatch (blockOutChannels : List Nat) (cad : Nat) :
    (∀ (rest : List Char) (h : Nat),
      blockOutChannels.getLast? = some h →
      hiddenSizeForName blockOutChannels ("mid_block".toList ++ rest) =
        Except.ok h) ∧
    (∀ (c : Char) (rest : List Char), c.isDigit = true →
      ∀ hlt : c.toNat - 48 < blockOutChannels.length,
      hiddenSizeForName blockOutChannels
          ("down_blocks.".toList ++ c :: rest) =
        Except.ok (blockOutChannels.get ⟨c.toNat - 48, hlt⟩)) ∧
    (∀ (c : Char) (rest : List Char), c.isDigit = true →
      ∀ hlt : c.toNat - 48 < blockOutChannels.reverse.length,
      hiddenSizeForName blockOutChannels ("up_blocks.".toList ++ c :: rest) =
        Except.ok (blockOutChannels.reverse.get ⟨c.toNat - 48, hlt⟩)) ∧
    (∀ name : ProcName,
      ("mid_block".toList).isPrefixOf name = false →
      ("up_blocks".toList).isPrefixOf name = false →
      ("down_blocks".toList).isPrefixOf name = false →
      hiddenSizeForName blockOutChannels name =
        Except.error "Encountered unexpected attention processor name.") ∧
    (∀ name : ProcName, crossAttentionDimForName cad name = none ↔
      ("attn1.processor".toList).isSuffixOf name = true) := by
  refine ⟨?_, ?_, ?_, ?_, ?_⟩
  · intro rest h hlast
    have hm : ("mid_block".toList).isPrefixOf ("mid_block".toList ++ rest) =
        true := isPrefixOf_append_self _ _
    simp [hiddenSizeForName, hm, hlast]
  · intro c rest hdig hlt
    have hm : ("mid_block".toList).isPrefixOf
        ("down_blocks.".toList ++ c :: rest) = false := rfl
    have hu : ("up_blocks".toList).isPrefixOf
        ("down_blocks.".toList ++ c :: rest) = false := rfl
    have hd : ("down_blocks".toList).isPrefixOf
        ("down_blocks.".toList ++ c :: rest) = true := rfl
    have hg : ("down_blocks.".toList ++ c :: rest).get? 12 = some c := rfl
    simp [hiddenSizeForName, hm, hu, hd, hg, charToDigit, hdig,
      List.getElem?_eq_getElem hlt]
  · intro c rest hdig hlt
    have hm : ("mid_block".toList).isPrefixOf
        ("up_blocks.".toList ++ c :: rest) = false := rfl
    have hu : ("up_blocks".toList).isPrefixOf
        ("up_blocks.".toList ++ c :: rest) = true := rfl
    have hg : ("up_blocks.".toList ++ c :: rest).get? 10 = some c := rfl
    simp [hiddenSizeForName, hm, hu, hg, charToDigit, hdig,
      List.getElem?_eq_getElem hlt]
  · intro name hm hu hd
    simp at hm hu hd
    simp [hiddenSizeForName, hm, hu, hd]
  · intro name
    cases hs : ("attn1.processor".toList).isSuffixOf name with
    | false => simp at hs; simp [crossAttentionDimForName, hs]
    | true => simp at hs; simp [crossAttentionDimForName, hs]

/-- C6, witness: for the Stable Diffusion channel list, the name
`down_blocks.1...attn1.processor` selects the second channel value, and
an unrecognized name is rejected. -/
theorem C6_witness :
    hiddenSizeForName [320, 640, 1280, 1280]
        ("down_blocks.".toList ++ '1' ::
          ".attentions.0.transformer_blocks.0.attn1.processor".toList) =
      Except.ok ([320, 640, 1280, 1280].get ⟨'1'.toNat - 48, by decide⟩) ∧
    hiddenSizeForName [320, 640, 1280, 1280]
        ("bogus_block.0.processor".toList) =
      Except.error "Encountered unexpected attention processor name." :=
  ⟨(C6_attention_name_dispatch [320, 640, 1280, 1280] 768).2.1 '1'
      ".attentions.0.transformer_blocks.0.attn1.processor".toList
      (by decide) (by decide),
    (C6_attention_name_dispatch [320, 640, 1280, 1280] 768).2.2.2.1
      ("bogus_block.0.processor".toList) rfl rfl rfl⟩

/-- On success, the injection loop yields exactly one LoRA processor per
input attention processor, and the flat parameter list is the
concatenation of the new modules' parameter lists. -/
theorem buildLoraProcs_counts (blockOutChannels : List Nat)
    (crossAttentionDim rank : Nat) :
    ∀ (procsIn : List (ProcName × AttnProcKind))
      (procs : List (ProcName × LoraProc)) (params : List TParam),
    buildLoraProcs blockOutChannels crossAttentionDim rank procsIn =
      Except.ok (procs, params) →
    procs.length = procsIn.length ∧
    params.length = (procs.map (fun p => (loraProcParams p.2).length)).sum := by
  intro procsIn
  induction procsIn with
  | nil =>
    intro procs params h
    simp only [buildLoraProcs] at h
    injection h with h
    injection h with h1 h2
    subst h1; subst h2
    simp
  | cons hd tl ih =>
    intro procs params h
    obtain ⟨name, kind⟩ := hd
    simp only [buildLoraProcs] at h
    cases hh : hiddenSizeForName blockOutChannels name with
    | error e => rw [hh] at h; exact Except.noConfusion h
    | ok hidden =>
      rw [hh] at h
      cases hb : buildLoraProcs blockOutChannels crossAttentionDim rank tl with
      | error e => rw [hb] at h; exact Except.noConfusion h
      | ok pr =>
        obtain ⟨procsTl, paramsTl⟩ := pr
        rw [hb] at h
        injection h with h
        injection h with h1 h2
        subst h1; subst h2
        obtain ⟨ihl, ihp⟩ := ih procsTl paramsTl hb
        constructor
        · simp [ihl]
        · simp [ihp]

/-- C7: on successful injection after model loading, there is exactly one
adapter per attention processor, the returned trainable-parameter list has
length equal to the sum of the per-adapter parameter counts, and every
base-model parameter (text encoder, autoencoder, denoising network) is
still non-trainable after injection. -/
theorem C7_adapter_injection (b : ModelBundle) (rank : Nat)
    (b2 : ModelBundle) (procs : List (ProcName × LoraProc))
    (params : List TParam)
    (h : loadAndInject b rank = Except.ok (b2, procs, params)) :
    procs.length = b.unet.attnProcessors.length ∧
    params.length = (procs.map (fun p => (loraProcParams p.2).length)).sum ∧
    b2.textEncoderParams.all (fun p => !p.requiresGrad) = true ∧
    b2.vaeParams.all (fun p => !p.requiresGrad) = true ∧
    b2.unet.baseParams.all (fun p => !p.requiresGrad) = true := by
  simp only [loadAndInject, addLoraToUnetAttentionLayers] at h
  cases hb : buildLoraProcs (freezeModels b).unet.blockOutChannels
      (freezeModels b).unet.crossAttentionDim rank
      (freezeModels b).unet.attnProcessors with
  | error e => rw [hb] at h; exact Except.noConfusion h
  | ok pr =>
    obtain ⟨procs0, params0⟩ := pr
    rw [hb] at h
    injection h with h
    injection h with h1 h2
    injection h2 with h2 h3
    subst h1; subst h2; subst h3
    have hfrozen : (freezeModels b).unet.blockOutChannels =
        b.unet.blockOutChannels ∧
        (freezeModels b).unet.crossAttentionDim = b.unet.crossAttentionDim ∧
        (freezeModels b).unet.attnProcessors = b.unet.attnProcessors :=
      ⟨rfl, rfl, rfl⟩
    obtain ⟨hc1, hc2, hc3⟩ := hfrozen
    rw [hc1, hc2, hc3] at hb
    obtain ⟨hl, hp⟩ := buildLoraProcs_counts b.unet.blockOutChannels
      b.unet.crossAttentionDim rank b.unet.attnProcessors procs0 params0 hb
    refine ⟨hl, hp, ?_, ?_, ?_⟩ <;> simp [freezeModels, List.all_eq_true]

/-- A minimal UNet/model bundle used to witness C7: one standard
self-attention processor in the bottleneck block, with all base parameters
initially trainable. -/
def exampleBundle : ModelBundle :=
  { textEncoderParams := [{ requiresGrad := true }]
    vaeParams := [{ requiresGrad := true }]
    unet := { blockOutChannels := [320, 640, 1280, 1280]
              crossAttentionDim := 768
              attnProcessors :=
                [("mid_block.attentions.0.transformer_blocks.0.attn1.processor".toList,
                  AttnProcKind.standard)]
              baseParams := [{ requiresGrad := true }] } }

/-- The bundle state after freezing and injection on `exampleBundle`. -/
def exampleInjected : ModelBundle :=
  { textEncoderParams := [{ requiresGrad := false }]
    vaeParams := [{ requiresGrad := false }]
    unet := { blockOutChannels := [320, 640, 1280, 1280]
              crossAttentionDim := 768
              attnProcessors :=
                [("mid_block.attentions.0.transformer_blocks.0.attn1.processor".toList,
                  AttnProcKind.standard)]
              baseParams := [{ requiresGrad := false }] } }

/-- The injected processors on `exampleBundle`: one adapter for the single
bottleneck self-attention site (hidden size 1280, no cross-attention
dimension). -/
def exampleProcs : List (ProcName × LoraProc) :=
  [("mid_block.attentions.0.transformer_blocks.0.attn1.processor".toList,
    { hiddenSize := 1280, crossAttentionDim := none, rank := 4,
      kind := AttnProcKind.standard })]

/-- The trainable parameters returned for `exampleBundle`: 8 new
parameters (4 LoRA layers with a down and an up weight each). -/
def exampleParams : List TParam :=
  List.replicate 8 { requiresGrad := true }

/-- C7, witness: on the one-processor example the counts and frozen flags
come out as claimed. -/
theorem C7_witness :
    exampleProcs.length = exampleBundle.unet.attnProcessors.length ∧
    exampleParams.length =
      (exampleProcs.map (fun p => (loraProcParams p.2).length)).sum :=
  ⟨(C7_adapter_injection exampleBundle 4 exampleInjected exampleProcs
      exampleParams rfl).1,
    (C7_adapter_injection exampleBundle 4 exampleInjected exampleProcs
      exampleParams rfl).2.1⟩

/-- C2, counterexample: with `max_checkpoints = 0` a save first evicts
everything and then still writes the new checkpoint, so after the first
save one entry remains on disk — not `min(K, M) = min(1, 0) = 0` as the
claim requires for every configured maximum. -/
theorem C2_counterexample :
    ((saveRun "step" (some 0) [] [1]).filter (matchesPfx "step")).length =
      1 ∧ min 1 0 = 0 :=
  ⟨rfl, rfl⟩

/-- Checkpoint entries of the given prefix all pass the directory
filter. -/
theorem filter_matches_map (pfx : String) (cps : List Nat) :
    (cps.map (DirEntry.checkpoint pfx)).filter (matchesPfx pfx) =
      cps.map (DirEntry.checkpoint pfx) := by
  rw [List.filter_eq_self]
  intro a ha
  obtain ⟨i, _hi, rfl⟩ := List.mem_map.mp ha
  simp [matchesPfx]

/-- Checkpoint entries built from a strictly increasing index list are
already in ascending index order. -/
theorem sorted_map_checkpoint (pfx : String) (cps : List Nat)
    (h : cps.Sorted (· < ·)) :
    (cps.map (DirEntry.checkpoint pfx)).Sorted idxLe := by
  rw [List.Sorted, List.pairwise_map]
  exact h.imp (fun hab => Nat.le_of_lt hab)

/-- For a fixed prefix, distinct indices give distinct entries. -/
theorem checkpoint_injective (pfx : String) :
    Function.Injective (DirEntry.checkpoint pfx) := by
  intro a b h
  injection h with h1 h2

/-- Checkpoint entries from a strictly increasing index list are
pairwise distinct. -/
theorem nodup_map_checkpoint (pfx : String) (cps : List Nat)
    (h : cps.Sorted (· < ·)) :
    (cps.map (DirEntry.checkpoint pfx)).Nodup :=
  List.Nodup.map (checkpoint_injective pfx) h.nodup

/-- Removing, by name, the first `n` entries of a duplicate-free listing
keeps exactly the remaining entries. -/
theorem filter_not_contains_take {α : Type} [DecidableEq α] (l : List α)
    (n : Nat) (hl : l.Nodup) :
    l.filter (fun e => !((l.take n).contains e)) = l.drop n := by
  have h1 : (l.take n).filter (fun e => !((l.take n).contains e)) = [] := by
    rw [List.filter_eq_nil_iff]
    intro a ha
    have hc : (l.take n).contains a = true := List.elem_iff.mpr ha
    simp only [hc, Bool.not_true]
    decide
  have h2 : (l.drop n).filter (fun e => !((l.take n).contains e)) =
      l.drop n := by
    rw [List.filter_eq_self]
    intro a ha
    have hnotin : a ∉ l.take n := fun hmem =>
      (List.disjoint_take_drop hl (Nat.le_refl n)) hmem ha
    have hcf : (l.take n).contains a = false := by
      cases hcc : (l.take n).contains a with
      | false => rfl
      | true => exact absurd (List.elem_iff.mp hcc) hnotin
    simp only [hcf, Bool.not_false]
  calc l.filter (fun e => !((l.take n).contains e))
      = (l.take n ++ l.drop n).filter (fun e => !((l.take n).contains e)) := by
        rw [List.take_append_drop]
    _ = (l.take n).filter (fun e => !((l.take n).contains e)) ++
          (l.drop n).filter (fun e => !((l.take n).contains e)) :=
        List.filter_append _ _
    _ = [] ++ l.drop n := by rw [h1, h2]
    _ = l.drop n := rfl

/-- One `_save_checkpoint` call on a directory holding non-matching
entries `O` plus the matching checkpoints for a strictly increasing index
list: when the count is at or above the maximum the oldest
`count - max + 1` matching entries are removed, and the new checkpoint is
appended. -/
theorem saveCheckpoint_step (i : Nat) (pfx : String) (M : Nat)
    (O : List DirEntry) (cps : List Nat)
    (hO : O.filter (matchesPfx pfx) = []) (hs : cps.Sorted (· < ·)) :
    saveCheckpoint i pfx (some M) (O ++ cps.map (DirEntry.checkpoint pfx)) =
      O ++ ((if M ≤ cps.length then cps.drop (cps.length - M + 1)
             else cps).map (DirEntry.checkpoint pfx))
        ++ [DirEntry.checkpoint pfx i] := by
  have hfilter : (O ++ cps.map (DirEntry.checkpoint pfx)).filter
      (matchesPfx pfx) = cps.map (DirEntry.checkpoint pfx) := by
    rw [List.filter_append, hO, filter_matches_map]
    rfl
  simp only [saveCheckpoint, hfilter,
    List.Sorted.insertionSort_eq (sorted_map_checkpoint pfx cps hs),
    List.length_map]
  by_cases hM : M ≤ cps.length
  · rw [if_pos hM, if_pos hM]
    have hOnot : ∀ o ∈ O,
        o ∉ ((cps.map (DirEntry.checkpoint pfx)).take
          (cps.length - M + 1)) := by
      intro o ho hmem
      have hmem2 : o ∈ cps.map (DirEntry.checkpoint pfx) :=
        List.take_subset _ _ hmem
      obtain ⟨j, _, rfl⟩ := List.mem_map.mp hmem2
      have hof := List.filter_eq_nil_iff.mp hO _ ho
      simp [matchesPfx] at hof
    have hOpart : O.filter (fun e =>
        !(((cps.map (DirEntry.checkpoint pfx)).take
          (cps.length - M + 1)).contains e)) = O := by
      rw [List.filter_eq_self]
      intro o ho
      have hcf : ((cps.map (DirEntry.checkpoint pfx)).take
          (cps.length - M + 1)).contains o = false := by
        cases hcc : ((cps.map (DirEntry.checkpoint pfx)).take
            (cps.length - M + 1)).contains o with
        | false => rfl
        | true => exact absurd (List.elem_iff.mp hcc) (hOnot o ho)
      simp only [hcf, Bool.not_false]
    have hCpart := filter_not_contains_take
      (cps.map (DirEntry.checkpoint pfx)) (cps.length - M + 1)
      (nodup_map_checkpoint pfx cps hs)
    rw [List.filter_append, hOpart, hCpart]
    rw [← List.map_drop]
  · rw [if_neg hM, if_neg hM]

/-- The fold of `_save_checkpoint` over a strictly increasing list of save
indices: starting from non-matching entries `O` plus at most `M` retained
checkpoints (the tail of the already-processed history), the directory
ends with `O` plus exactly the most recent `min(total, M)` checkpoints. -/
theorem saveRun_closed (pfx : String) (M : Nat) (hM : 1 ≤ M) :
    ∀ (idxs cps : List Nat) (O : List DirEntry),
    O.filter (matchesPfx pfx) = [] →
    (cps ++ idxs).Sorted (· < ·) →
    cps.length ≤ M →
    saveRun pfx (some M) (O ++ cps.map (DirEntry.checkpoint pfx)) idxs =
      O ++ ((cps ++ idxs).drop
        (cps.length + idxs.length - min (cps.length + idxs.length) M)).map
          (DirEntry.checkpoint pfx) := by
  intro idxs
  induction idxs with
  | nil =>
    intro cps O hO hs hlen
    have h0 : cps.length - min cps.length M = 0 := by omega
    simp [saveRun, h0]
  | cons i rest ih =>
    intro cps O hO hs hlen
    have hstep0 : saveRun pfx (some M)
        (O ++ cps.map (DirEntry.checkpoint pfx)) (i :: rest) =
        saveRun pfx (some M)
          (saveCheckpoint i pfx (some M)
            (O ++ cps.map (DirEntry.checkpoint pfx))) rest := rfl
    have hscps : cps.Sorted (· < ·) :=
      hs.sublist (List.sublist_append_left cps (i :: rest))
    rw [hstep0, saveCheckpoint_step i pfx M O cps hO hscps]
    by_cases hMle : M ≤ cps.length
    · have hlenM : cps.length = M := Nat.le_antisymm hlen hMle
      have hn : cps.length - M + 1 = 1 := by omega
      rw [if_pos hMle, hn]
      have hgroup : O ++ (cps.drop 1).map (DirEntry.checkpoint pfx) ++
          [DirEntry.checkpoint pfx i] =
          O ++ ((cps.drop 1) ++ [i]).map (DirEntry.checkpoint pfx) := by
        simp
      rw [hgroup]
      have hsub : ((cps.drop 1 ++ [i]) ++ rest).Sublist (cps ++ i :: rest) := by
        rw [List.append_assoc]
        exact List.Sublist.append (List.drop_sublist 1 cps)
          (List.Sublist.refl (i :: rest))
      have hsorted2 : ((cps.drop 1 ++ [i]) ++ rest).Sorted (· < ·) :=
        hs.sublist hsub
      have hlen2 : (cps.drop 1 ++ [i]).length ≤ M := by
        simp [List.length_drop]
        omega
      rw [ih (cps.drop 1 ++ [i]) O hO hsorted2 hlen2]
      congr 1
      have ha2 : (cps.drop 1 ++ [i]).length + rest.length -
          min ((cps.drop 1 ++ [i]).length + rest.length) M = rest.length := by
        simp [List.length_drop]
        omega
      rw [ha2]
      have heq : (cps.drop 1 ++ [i]) ++ rest = (cps ++ i :: rest).drop 1 := by
        rw [List.append_assoc]
        rw [List.drop_append_of_le_length (by omega : 1 ≤ cps.length)]
        rfl
      rw [heq, List.drop_drop]
      have hamt : cps.length + (i :: rest).length -
          min (cps.length + (i :: rest).length) M = 1 + rest.length := by
        simp [List.length_cons]
        omega
      rw [hamt]
    · rw [if_neg hMle]
      have hgroup : O ++ cps.map (DirEntry.checkpoint pfx) ++
          [DirEntry.checkpoint pfx i] =
          O ++ (cps ++ [i]).map (DirEntry.checkpoint pfx) := by
        simp
      rw [hgroup]
      have hsorted2 : ((cps ++ [i]) ++ rest).Sorted (· < ·) := by
        rw [List.append_assoc]
        exact hs
      have hlen2 : (cps ++ [i]).length ≤ M := by
        simp
        omega
      rw [ih (cps ++ [i]) O hO hsorted2 hlen2]
      congr 1
      have heq : (cps ++ [i]) ++ rest = cps ++ i :: rest := by
        rw [List.append_assoc]
        rfl
      rw [heq]
      have hamt : (cps ++ [i]).length + rest.length -
          min ((cps ++ [i]).length + rest.length) M =
          cps.length + (i :: rest).length -
            min (cps.length + (i :: rest).length) M := by
        simp
        omega
      rw [hamt]

/-- C2, amended: for a strictly increasing sequence of `K` save indices
under the same prefix and a configured maximum `M ≥ 1`, starting from a
directory with no checkpoints for that prefix, after the `K`th save the
matching checkpoint entries are exactly the most recent `min(K, M)` save
indices in ascending order, so their count is `min(K, M)`. -/
theorem C2_checkpoint_retention (pfx : String) (M : Nat) (idxs : List Nat)
    (O : List DirEntry) (hM : 1 ≤ M) (hs : idxs.Sorted (· < ·))
    (hO : O.filter (matchesPfx pfx) = []) :
    (saveRun pfx (some M) O idxs).filter (matchesPfx pfx) =
      (idxs.drop (idxs.length - min idxs.length M)).map
        (DirEntry.checkpoint pfx) ∧
    ((saveRun pfx (some M) O idxs).filter (matchesPfx pfx)).length =
      min idxs.length M := by
  have h0 := saveRun_closed pfx M hM idxs [] O hO (by simpa using hs)
    (by simp)
  simp only [List.map_nil, List.append_nil, List.nil_append,
    List.length_nil, Nat.zero_add] at h0
  have hres : (saveRun pfx (some M) O idxs).filter (matchesPfx pfx) =
      (idxs.drop (idxs.length - min idxs.length M)).map
        (DirEntry.checkpoint pfx) := by
    rw [h0, List.filter_append, hO, filter_matches_map]
    rfl
  refine ⟨hres, ?_⟩
  rw [hres, List.length_map, List.length_drop]
  omega

/-- C2, witness: three saves at indices 1, 2, 3 with maximum 2 leave
exactly the two most recent checkpoints. -/
theorem C2_witness :
    (saveRun "step" (some 2) [] [1, 2, 3]).filter (matchesPfx "step") =
      ([1, 2, 3].drop (3 - min 3 2)).map (DirEntry.checkpoint "step") ∧
    ((saveRun "step" (some 2) [] [1, 2, 3]).filter
        (matchesPfx "step")).length = min 3 2 :=
  C2_checkpoint_retention "step" 2 [1, 2, 3] [] (by decide) (by decide) rfl

end LoraTraining
